import Mathlib

/-!
Verification of the FasterSpeech data/loss module
(`nemo/collections/tts/fasterspeech_modules.py`).

1-D tensors are modelled as `List`, 2-D tensors as `List (List _)` (rows of
equal width after padding), float contents as `ℚ`, long contents as `Int` or
`Nat` (durations and lengths are non-negative counts).  Fallible code
(assertion failures) returns `Option`.
-/

namespace _Ops

/-- `max(tensor.shape[0] for tensor in tensors)` (0 on an empty batch, where
the source `max` would raise). -/
def maxLen {α : Type} (tensors : List (List α)) : Nat :=
  (tensors.map List.length).foldl max 0

/-- `_Ops.merge`: right-pad each 1-D tensor with `value` to the maximum length
in the batch (`F.pad`), then stack into a 2-D tensor (`torch.stack`). -/
def merge {α : Type} (tensors : List (List α)) (value : α) : List (List α) :=
  tensors.map (fun t => t ++ List.replicate (maxLen tensors - t.length) value)

/-- `_Ops.make_mask`: stack per-example all-ones vectors (`torch.ones length`)
and pad with zeros, as booleans. -/
def make_mask (lengths : List Nat) : List (List Bool) :=
  merge (lengths.map (fun length => List.replicate length true)) false

/-- `_Ops.interleave`: `torch.stack([x[:-1], y], dim=1).view(-1)` followed by
`F.pad(xy, pad=[0, 1], value=x[-1])`, i.e. alternate the elements of `x` and
`y` and close with the last element of `x`.  (`torch.stack` requires
`len(x) - 1 == len(y)` and `x[-1]` requires `x` non-empty; the model totalises
via `zip` truncation and an empty tail, and all theorems assume the
precondition `x.length = y.length + 1`.) -/
def interleave {α : Type} (x y : List α) : List α :=
  ((x.dropLast.zip y).map (fun p => [p.1, p.2])).flatten ++
    (x.getLast?.elim [] (fun a => [a]))

end _Ops

/-- `torch.repeat_interleave(text1, dur1)`: each element of `t` repeated the
corresponding number of times from `d`, concatenated in order. -/
def repeat_interleave {α : Type} (t : List α) (d : List Nat) : List α :=
  ((t.zip d).map (fun p => List.replicate p.2 p.1)).flatten

/-- The shape `(rows, max row width)` of a 2-D tensor model; for merged
(stacked) tensors every row has the maximal width, so this is the torch
shape `(B, T)`. -/
def shape2 {α : Type} (t : List (List α)) : Nat × Nat :=
  (t.length, (t.map List.length).foldl max 0)

/-- The two duration-encoding schemes of `FasterSpeechDataset` /
`FasterSpeechDataLayer` (`durs_type`). -/
inductive DursType where
  | pad : DursType
  | full_pad : DursType
deriving DecidableEq

/-- One example as assembled by `FasterSpeechDataset.__getitem__`: audio
signal with its length, token ids with their count, the duration record
(`dur`), and the blank-duration record (`blank`, present exactly under the
"full-pad" scheme).  Speaker fields are orthogonal to the verified claims and
not modelled. -/
structure FSExample where
  audio : List ℚ
  audio_len : Nat
  text : List Int
  text_len : Nat
  blank : Option (List Nat)
  dur : List Nat
deriving DecidableEq, Inhabited

/-- The batch tuple returned by `FasterSpeechDataLayer._collate` (speaker
fields omitted). -/
structure FSBatch where
  audio : Option (List (List ℚ))
  audio_len : Option (List Nat)
  text : List (List Int)
  text_mask : List (List Bool)
  dur : List (List Nat)
  text_rep : List (List Int)
  text_rep_mask : List (List Bool)
deriving DecidableEq

/-- The per-example expanded token rows built by `_collate` before merging:
under "pad" each token sequence gets one space token prepended and appended
(`F.pad(text, pad=[1, 1], value=self._space_id)`); under "full-pad" each
token sequence is interleaved with a blank-id sequence of length
`len(text) + 1` (`torch.empty(len(text) + 1).fill_(self._blank_id)`). -/
def collateTextRows (durs_type : DursType) (space_id blank_id : Int)
    (batch : List FSExample) : List (List Int) :=
  match durs_type with
  | DursType.pad => batch.map (fun e => space_id :: (e.text ++ [space_id]))
  | DursType.full_pad => batch.map (fun e =>
      _Ops.interleave (List.replicate (e.text.length + 1) blank_id) e.text)

/-- The per-example valid lengths `_collate` feeds to `_Ops.make_mask`:
`text_len + 2` under "pad", `text_len * 2 + 1` under "full-pad". -/
def collateMaskLens (durs_type : DursType) (batch : List FSExample) : List Nat :=
  match durs_type with
  | DursType.pad => batch.map (fun e => e.text_len + 2)
  | DursType.full_pad => batch.map (fun e => e.text_len * 2 + 1)

/-- The per-example duration rows `_collate` merges: the raw duration record
under "pad"; `interleave(b, d)` of blank-durations and token-durations under
"full-pad". -/
def collateDurRows (durs_type : DursType) (batch : List FSExample) : List (List Nat) :=
  match durs_type with
  | DursType.pad => batch.map FSExample.dur
  | DursType.full_pad => batch.map (fun e => _Ops.interleave (e.blank.getD []) e.dur)

/-- The tensor-construction part of `FasterSpeechDataLayer._collate`
(everything before the `assert` statements). -/
def collateRaw (durs_type : DursType) (space_id pad_id blank_id : Int)
    (load_audio : Bool) (batch : List FSExample) : FSBatch :=
  let audio := if load_audio then some (_Ops.merge (batch.map FSExample.audio) 0) else none
  let audio_len := if load_audio then some (batch.map FSExample.audio_len) else none
  let text := _Ops.merge (collateTextRows durs_type space_id blank_id batch) pad_id
  let text_mask := _Ops.make_mask (collateMaskLens durs_type batch)
  let dur := _Ops.merge (collateDurRows durs_type batch) 0
  let text_rep := _Ops.merge ((text.zip dur).map (fun p => repeat_interleave p.1 p.2)) 0
  let text_rep_mask := _Ops.make_mask (dur.map List.sum)
  ⟨audio, audio_len, text, text_mask, dur, text_rep, text_rep_mask⟩

/-- The `assert` statements at the end of `_collate`:
`audio is None or audio.shape[-1] == audio_len.max()`,
`text.shape == text_mask.shape`, `text.shape == dur.shape`. -/
def collateChecks (b : FSBatch) : Bool :=
  (match b.audio, b.audio_len with
   | some a, some al => ((a.map List.length).foldl max 0 == al.foldl max 0 : Bool)
   | _, _ => true) &&
  (shape2 b.text == shape2 b.text_mask) && (shape2 b.text == shape2 b.dur)

/-- `FasterSpeechDataLayer._collate`.  `none` models a raised error: one of
the final `assert` statements failing, or the `batch[0]` access failing on an
empty batch. -/
def collate (durs_type : DursType) (space_id pad_id blank_id : Int)
    (load_audio : Bool) (batch : List FSExample) : Option FSBatch :=
  if batch.isEmpty then none
  else if collateChecks (collateRaw durs_type space_id pad_id blank_id load_audio batch) then
    some (collateRaw durs_type space_id pad_id blank_id load_audio batch)
  else none

/-! ### Basic lemmas on the padding/masking utilities -/

lemma foldl_max_le_iff (l : List Nat) (a c : Nat) :
    l.foldl max a ≤ c ↔ a ≤ c ∧ ∀ x ∈ l, x ≤ c := by
  induction l generalizing a with
  | nil => simp
  | cons b t ih =>
    simp only [List.foldl_cons, ih, max_le_iff, List.mem_cons]
    aesop

lemma le_foldl_max (l : List Nat) (a x : Nat) (hx : x ∈ l) : x ≤ l.foldl max a :=
  ((foldl_max_le_iff l a _).mp le_rfl).2 x hx

lemma self_le_foldl_max (l : List Nat) (a : Nat) : a ≤ l.foldl max a :=
  ((foldl_max_le_iff l a _).mp le_rfl).1

namespace _Ops

lemma length_merge {α : Type} (ts : List (List α)) (v : α) :
    (merge ts v).length = ts.length := by
  simp [merge]

lemma length_le_maxLen {α : Type} {ts : List (List α)} {t : List α} (h : t ∈ ts) :
    t.length ≤ maxLen ts :=
  le_foldl_max _ 0 _ (List.mem_map_of_mem List.length h)

lemma merge_getD {α : Type} (ts : List (List α)) (v : α) (i : Nat) (h : i < ts.length) :
    (merge ts v).getD i [] =
      ts.getD i [] ++ List.replicate (maxLen ts - (ts.getD i []).length) v := by
  simp [merge, List.getD_eq_getElem?_getD, List.getElem?_map, List.getElem?_eq_getElem h]

lemma getD_mem_of_lt {α : Type} (l : List α) (d : α) {i : Nat} (h : i < l.length) :
    l.getD i d ∈ l := by
  rw [List.getD_eq_getElem _ _ h]
  exact List.getElem_mem h

lemma merge_row_length {α : Type} (ts : List (List α)) (v : α) (i : Nat)
    (h : i < ts.length) : ((merge ts v).getD i []).length = maxLen ts := by
  rw [merge_getD ts v i h]
  have h2 := length_le_maxLen (getD_mem_of_lt ts [] h)
  rw [List.length_append, List.length_replicate]
  omega

lemma merge_row_sum (ts : List (List Nat)) (i : Nat) (h : i < ts.length) :
    ((merge ts 0).getD i []).sum = (ts.getD i []).sum := by
  rw [merge_getD ts 0 i h]
  simp

lemma length_make_mask (lengths : List Nat) :
    (make_mask lengths).length = lengths.length := by
  simp [make_mask, length_merge]

lemma make_mask_getD (lengths : List Nat) (i : Nat) (h : i < lengths.length) :
    (make_mask lengths).getD i [] =
      List.replicate (lengths.getD i 0) true ++
        List.replicate (maxLen (lengths.map (fun length => List.replicate length true)) -
          lengths.getD i 0) false := by
  unfold make_mask
  rw [merge_getD _ _ i (by simpa using h)]
  simp [List.getD_eq_getElem?_getD, List.getElem?_map, List.getElem?_eq_getElem h]

lemma make_mask_count (lengths : List Nat) (i : Nat) (h : i < lengths.length) :
    ((make_mask lengths).getD i []).count true = lengths.getD i 0 := by
  rw [make_mask_getD lengths i h]
  simp [List.count_append, List.count_replicate]

lemma getD_replicate {α : Type} (n : Nat) (a d : α) (j : Nat) :
    (List.replicate n a).getD j d = if j < n then a else d := by
  rcases lt_or_le j n with h | h
  · rw [List.getD_eq_getElem _ _ (by simpa using h)]
    simp [h]
  · rw [List.getD_eq_default _ _ (by simpa using h)]
    simp [Nat.not_lt.mpr h]

lemma make_mask_getD_getD (lengths : List Nat) (i : Nat) (h : i < lengths.length)
    (j : Nat) : ((make_mask lengths).getD i []).getD j false =
      decide (j < lengths.getD i 0) := by
  rw [make_mask_getD lengths i h]
  rcases lt_or_le j (lengths.getD i 0) with hj | hj
  · rw [List.getD_append _ _ _ j (by simpa using hj), getD_replicate]
    simp [hj]
  · rw [List.getD_append_right _ _ _ j
      (by simp only [List.length_replicate]; exact hj), getD_replicate]
    rw [ite_self]
    exact (decide_eq_false (Nat.not_lt.mpr hj)).symm

lemma interleave_singleton {α : Type} (a : α) : interleave [a] [] = [a] := rfl

lemma interleave_cons {α : Type} (a b : α) (x y : List α) (hx : x ≠ []) :
    interleave (a :: x) (b :: y) = a :: b :: interleave x y := by
  obtain ⟨c, x, rfl⟩ := List.exists_cons_of_ne_nil hx
  simp [interleave]

lemma interleave_length {α : Type} (x y : List α) (hx : x.length = y.length + 1) :
    (interleave x y).length = 2 * y.length + 1 := by
  induction y generalizing x with
  | nil =>
    obtain ⟨a, rfl⟩ := List.length_eq_one.mp hx
    simp [interleave_singleton]
  | cons b y ih =>
    cases x with
    | nil => simp at hx
    | cons a x =>
      have hx2 : x.length = y.length + 1 := by simpa using hx
      have hne : x ≠ [] := by
        intro hn
        rw [hn] at hx2
        simp at hx2
      rw [interleave_cons a b x y hne]
      simp only [List.length_cons, ih x hx2]
      ring

lemma interleave_getD_even {α : Type} (x y : List α) (d : α)
    (hx : x.length = y.length + 1) (k : Nat) (hk : k ≤ y.length) :
    (interleave x y).getD (2 * k) d = x.getD k d := by
  induction y generalizing x k with
  | nil =>
    obtain ⟨a, rfl⟩ := List.length_eq_one.mp hx
    have hk0 : k = 0 := Nat.le_zero.mp hk
    subst hk0
    simp [interleave_singleton]
  | cons b y ih =>
    cases x with
    | nil => simp at hx
    | cons a x =>
      have hx2 : x.length = y.length + 1 := by simpa using hx
      have hne : x ≠ [] := by
        intro hn
        rw [hn] at hx2
        simp at hx2
      rw [interleave_cons a b x y hne]
      cases k with
      | zero => simp
      | succ k =>
        have h2 : 2 * (k + 1) = 2 * k + 1 + 1 := by ring
        rw [h2, List.getD_cons_succ, List.getD_cons_succ, List.getD_cons_succ]
        exact ih x hx2 k (by simpa using hk)

lemma interleave_getD_odd {α : Type} (x y : List α) (d : α)
    (hx : x.length = y.length + 1) (k : Nat) (hk : k < y.length) :
    (interleave x y).getD (2 * k + 1) d = y.getD k d := by
  induction y generalizing x k with
  | nil => simp at hk
  | cons b y ih =>
    cases x with
    | nil => simp at hx
    | cons a x =>
      have hx2 : x.length = y.length + 1 := by simpa using hx
      have hne : x ≠ [] := by
        intro hn
        rw [hn] at hx2
        simp at hx2
      rw [interleave_cons a b x y hne]
      cases k with
      | zero => simp
      | succ k =>
        have h2 : 2 * (k + 1) + 1 = 2 * k + 1 + 1 + 1 := by ring
        rw [h2, List.getD_cons_succ, List.getD_cons_succ, List.getD_cons_succ]
        exact ih x hx2 k (by simpa using hk)

lemma interleave_sum (x y : List Nat) (hx : x.length = y.length + 1) :
    (interleave x y).sum = x.sum + y.sum := by
  induction y generalizing x with
  | nil =>
    obtain ⟨a, rfl⟩ := List.length_eq_one.mp hx
    simp [interleave_singleton]
  | cons b y ih =>
    cases x with
    | nil => simp at hx
    | cons a x =>
      have hx2 : x.length = y.length + 1 := by simpa using hx
      have hne : x ≠ [] := by
        intro hn
        rw [hn] at hx2
        simp at hx2
      rw [interleave_cons a b x y hne]
      simp only [List.sum_cons, ih x hx2]
      ring

end _Ops

/-! ### Structure of the collator output -/

lemma collateRaw_text (dt : DursType) (s p bl : Int) (la : Bool) (batch : List FSExample) :
    (collateRaw dt s p bl la batch).text = _Ops.merge (collateTextRows dt s bl batch) p := rfl

lemma collateRaw_text_mask (dt : DursType) (s p bl : Int) (la : Bool) (batch : List FSExample) :
    (collateRaw dt s p bl la batch).text_mask = _Ops.make_mask (collateMaskLens dt batch) := rfl

lemma collateRaw_dur (dt : DursType) (s p bl : Int) (la : Bool) (batch : List FSExample) :
    (collateRaw dt s p bl la batch).dur = _Ops.merge (collateDurRows dt batch) 0 := rfl

lemma collateRaw_text_rep (dt : DursType) (s p bl : Int) (la : Bool) (batch : List FSExample) :
    (collateRaw dt s p bl la batch).text_rep =
      _Ops.merge (((collateRaw dt s p bl la batch).text.zip
        (collateRaw dt s p bl la batch).dur).map (fun q => repeat_interleave q.1 q.2)) 0 := rfl

lemma collateRaw_text_rep_mask (dt : DursType) (s p bl : Int) (la : Bool) (batch : List FSExample) :
    (collateRaw dt s p bl la batch).text_rep_mask =
      _Ops.make_mask ((collateRaw dt s p bl la batch).dur.map List.sum) := rfl

lemma length_collateDurRows (dt : DursType) (batch : List FSExample) :
    (collateDurRows dt batch).length = batch.length := by
  cases dt <;> simp [collateDurRows]

lemma length_collateTextRows (dt : DursType) (s bl : Int) (batch : List FSExample) :
    (collateTextRows dt s bl batch).length = batch.length := by
  cases dt <;> simp [collateTextRows]

lemma collate_eq_some {dt : DursType} {s p bl : Int} {la : Bool}
    {batch : List FSExample} {fb : FSBatch}
    (h : collate dt s p bl la batch = some fb) :
    batch ≠ [] ∧ fb = collateRaw dt s p bl la batch ∧
      collateChecks (collateRaw dt s p bl la batch) = true := by
  unfold collate at h
  split at h
  · exact absurd h (by simp)
  · next hb =>
    split at h
    · next hc =>
      refine ⟨?_, (Option.some.inj h).symm, hc⟩
      intro hn
      rw [hn] at hb
      simp at hb
    · exact absurd h (by simp)

lemma getD_map_sum (l : List (List Nat)) (i : Nat) (h : i < l.length) :
    (l.map List.sum).getD i 0 = (l.getD i []).sum := by
  rw [List.getD_eq_getElem _ _ (by simpa using h), List.getD_eq_getElem _ _ h]
  simp

/-- Claim C1: for every batch returned by the collator, `text`, `text_mask`
and `dur` have equal shapes; for every example in the batch the row sum of
`text_rep_mask` (its count of `true`) equals the row sum of `dur`; and when
audio is loaded, the last dimension of `audio` equals the maximum of
`audio_len`. -/
theorem fs_c1 (dt : DursType) (s p bl : Int) (la : Bool)
    (batch : List FSExample) (fb : FSBatch)
    (h : collate dt s p bl la batch = some fb) :
    shape2 fb.text = shape2 fb.text_mask ∧
    shape2 fb.text = shape2 fb.dur ∧
    (∀ i, i < batch.length →
      (fb.text_rep_mask.getD i []).count true = (fb.dur.getD i []).sum) ∧
    (∀ a al, fb.audio = some a → fb.audio_len = some al →
      (shape2 a).2 = al.foldl max 0) := by
  obtain ⟨hne, rfl, hc⟩ := collate_eq_some h
  unfold collateChecks at hc
  simp only [Bool.and_eq_true, beq_iff_eq] at hc
  obtain ⟨⟨hau, hshape1⟩, hshape2⟩ := hc
  refine ⟨hshape1, hshape2, ?_, ?_⟩
  · intro i hi
    have hlen : i < (collateRaw dt s p bl la batch).dur.length := by
      rw [collateRaw_dur, _Ops.length_merge, length_collateDurRows]
      exact hi
    rw [collateRaw_text_rep_mask,
      _Ops.make_mask_count _ i (by simpa using hlen),
      getD_map_sum _ i hlen]
  · intro a al ha hal
    rw [ha, hal] at hau
    simpa using hau

lemma getD_map_row {α β : Type} [Inhabited α] (f : α → List β) (l : List α) (i : Nat)
    (h : i < l.length) : (l.map f).getD i [] = f (l.getD i default) := by
  rw [List.getD_eq_getElem _ _ (by simpa using h), List.getD_eq_getElem _ _ h]
  simp

lemma getD_map_nat {α : Type} [Inhabited α] (f : α → Nat) (l : List α) (i : Nat)
    (h : i < l.length) : (l.map f).getD i 0 = f (l.getD i default) := by
  rw [List.getD_eq_getElem _ _ (by simpa using h), List.getD_eq_getElem _ _ h]
  simp

lemma getD_map_zip_row {α β γ : Type} (f : List α × List β → List γ)
    (l1 : List (List α)) (l2 : List (List β)) (i : Nat)
    (h1 : i < l1.length) (h2 : i < l2.length) :
    ((l1.zip l2).map f).getD i [] = f (l1.getD i [], l2.getD i []) := by
  have hz : i < (l1.zip l2).length := by
    rw [List.length_zip]
    exact lt_min h1 h2
  rw [List.getD_eq_getElem _ _ (by simpa using hz),
    List.getD_eq_getElem _ _ h1, List.getD_eq_getElem _ _ h2]
  simp [List.getElem_zip]

/-- Concrete two-example "full-pad" batch for the witnesses. -/
def fsW1 : FSExample := ⟨[1, 2], 2, [5, 6], 2, some [1, 2, 3], [4, 5]⟩

def fsW2 : FSExample := ⟨[1, 2, 3], 3, [7], 1, some [2, 1], [3]⟩

def fsWBatch : List FSExample := [fsW1, fsW2]

/-- The batch the collator produces on `fsWBatch` (space id 9, pad id 7,
blank id 8, audio loaded). -/
def fsWFB : FSBatch := collateRaw DursType.full_pad 9 7 8 true fsWBatch

theorem fs_c1_witness :
    shape2 fsWFB.text = shape2 fsWFB.text_mask ∧
    shape2 fsWFB.text = shape2 fsWFB.dur ∧
    (fsWFB.text_rep_mask.getD 0 []).count true = (fsWFB.dur.getD 0 []).sum :=
  have h := fs_c1 DursType.full_pad 9 7 8 true fsWBatch fsWFB (by decide)
  ⟨h.1, h.2.1, h.2.2.1 0 (by decide)⟩

lemma collateTextRows_full_pad (s bl : Int) (batch : List FSExample) :
    collateTextRows DursType.full_pad s bl batch =
      batch.map (fun e => _Ops.interleave (List.replicate (e.text.length + 1) bl) e.text) := rfl

lemma collateMaskLens_full_pad (batch : List FSExample) :
    collateMaskLens DursType.full_pad batch =
      batch.map (fun e => e.text_len * 2 + 1) := rfl

lemma collateDurRows_full_pad (batch : List FSExample) :
    collateDurRows DursType.full_pad batch =
      batch.map (fun e => _Ops.interleave (e.blank.getD []) e.dur) := rfl

/-- Claim C2: under the "full-pad" scheme, each example's `text` row is the
interleaving of a blank-id sequence of length `token_count + 1` with the raw
token sequence: the interleaved sequence has length `2 * token_count + 1`,
blank ids occupy the even positions `0, 2, ..., 2 * token_count` and token
ids the odd positions; the presence mask for each row is built from length
`2 * text_len + 1`; and `dur` interleaves each example's blank-durations
with its token-durations in the same even/odd pattern. -/
theorem fs_c2 (s p bl : Int) (la : Bool) (batch : List FSExample) (fb : FSBatch)
    (h : collate DursType.full_pad s p bl la batch = some fb)
    (hbl : ∀ e ∈ batch, ∃ b, e.blank = some b ∧ b.length = e.dur.length + 1) :
    ∀ i, i < batch.length →
      ((_Ops.interleave (List.replicate ((batch.getD i default).text.length + 1) bl)
          (batch.getD i default).text).length
        = 2 * (batch.getD i default).text.length + 1) ∧
      (∀ k, k ≤ (batch.getD i default).text.length →
        (fb.text.getD i []).getD (2 * k) 0 = bl) ∧
      (∀ k, k < (batch.getD i default).text.length →
        (fb.text.getD i []).getD (2 * k + 1) 0 = (batch.getD i default).text.getD k 0) ∧
      (∀ j, (fb.text_mask.getD i []).getD j false
          = decide (j < (batch.getD i default).text_len * 2 + 1)) ∧
      (∀ k, k ≤ (batch.getD i default).dur.length →
        (fb.dur.getD i []).getD (2 * k) 0
          = ((batch.getD i default).blank.getD []).getD k 0) ∧
      (∀ k, k < (batch.getD i default).dur.length →
        (fb.dur.getD i []).getD (2 * k + 1) 0 = (batch.getD i default).dur.getD k 0) := by
  obtain ⟨hne, rfl, hc⟩ := collate_eq_some h
  intro i hi
  set e := batch.getD i default with he
  have hmem : e ∈ batch := _Ops.getD_mem_of_lt batch default hi
  have hxlen : (List.replicate (e.text.length + 1) bl).length = e.text.length + 1 := by simp
  have hilen : (_Ops.interleave (List.replicate (e.text.length + 1) bl) e.text).length
      = 2 * e.text.length + 1 := _Ops.interleave_length _ _ hxlen
  have hrowlen : i < (collateTextRows DursType.full_pad s bl batch).length := by
    rw [length_collateTextRows]
    exact hi
  obtain ⟨tpad, htrow⟩ : ∃ padn, (collateRaw DursType.full_pad s p bl la batch).text.getD i [] =
      _Ops.interleave (List.replicate (e.text.length + 1) bl) e.text ++
        List.replicate padn p :=
    ⟨_, by rw [collateRaw_text, _Ops.merge_getD _ _ i hrowlen, collateTextRows_full_pad,
      getD_map_row _ _ i hi]⟩
  obtain ⟨b, hb, hblen⟩ := hbl e hmem
  have hdlen : (_Ops.interleave b e.dur).length = 2 * e.dur.length + 1 :=
    _Ops.interleave_length _ _ hblen
  have hdrowlen : i < (collateDurRows DursType.full_pad batch).length := by
    rw [length_collateDurRows]
    exact hi
  obtain ⟨dpad, hdrow⟩ : ∃ padn, (collateRaw DursType.full_pad s p bl la batch).dur.getD i [] =
      _Ops.interleave b e.dur ++ List.replicate padn 0 :=
    ⟨_, by rw [collateRaw_dur, _Ops.merge_getD _ _ i hdrowlen, collateDurRows_full_pad,
      getD_map_row _ _ i hi, hb, Option.getD_some]⟩
  refine ⟨hilen, ?_, ?_, ?_, ?_, ?_⟩
  · intro k hk
    rw [htrow, List.getD_append _ _ _ _ (by rw [hilen]; omega),
      _Ops.interleave_getD_even _ _ _ hxlen k hk, _Ops.getD_replicate]
    simp [Nat.lt_succ_of_le hk]
  · intro k hk
    rw [htrow, List.getD_append _ _ _ _ (by rw [hilen]; omega),
      _Ops.interleave_getD_odd _ _ _ hxlen k hk]
  · intro j
    rw [collateRaw_text_mask, collateMaskLens_full_pad,
      _Ops.make_mask_getD_getD _ i (by simpa using hi) j, getD_map_nat _ _ i hi]
  · intro k hk
    rw [hdrow, List.getD_append _ _ _ _ (by rw [hdlen]; omega),
      _Ops.interleave_getD_even _ _ _ hblen k hk, hb, Option.getD_some]
  · intro k hk
    rw [hdrow, List.getD_append _ _ _ _ (by rw [hdlen]; omega),
      _Ops.interleave_getD_odd _ _ _ hblen k hk]

theorem fs_c2_witness :
    (fsWFB.text.getD 0 []).getD 2 0 = 8 ∧
    (fsWFB.text.getD 0 []).getD 3 0 = fsW1.text.getD 1 0 ∧
    (fsWFB.dur.getD 0 []).getD 2 0 = (fsW1.blank.getD []).getD 1 0 := by
  have h := fs_c2 9 7 8 true fsWBatch fsWFB (by decide) (by decide) 0 (by decide)
  exact ⟨h.2.1 1 (by decide), h.2.2.1 1 (by decide), h.2.2.2.2.1 1 (by decide)⟩

/-- Claim C3: for every batch returned by the collator, each row of
`text_rep` is that row's (padded) `text` positions each replicated by the
corresponding (padded) `dur` value, concatenated in order and right-padded
across the batch; `text_rep_mask` row `i` has `true` exactly at the first
`sum (dur row i)` positions; and the padded `dur` row sums equal the true
per-example duration sums (the `dur` padding value is 0, contributing
nothing). -/
theorem fs_c3 (dt : DursType) (s p bl : Int) (la : Bool)
    (batch : List FSExample) (fb : FSBatch)
    (h : collate dt s p bl la batch = some fb) :
    ∀ i, i < batch.length →
      (∃ padn, fb.text_rep.getD i [] =
        repeat_interleave (fb.text.getD i []) (fb.dur.getD i []) ++ List.replicate padn 0) ∧
      (∀ j, (fb.text_rep_mask.getD i []).getD j false
          = decide (j < (fb.dur.getD i []).sum)) ∧
      (fb.dur.getD i []).sum = ((collateDurRows dt batch).getD i []).sum := by
  obtain ⟨hne, rfl, hc⟩ := collate_eq_some h
  intro i hi
  have htl : i < (collateRaw dt s p bl la batch).text.length := by
    rw [collateRaw_text, _Ops.length_merge, length_collateTextRows]
    exact hi
  have hdl : i < (collateRaw dt s p bl la batch).dur.length := by
    rw [collateRaw_dur, _Ops.length_merge, length_collateDurRows]
    exact hi
  refine ⟨?_, ?_, ?_⟩
  · exact ⟨_, by
      rw [collateRaw_text_rep, _Ops.merge_getD _ _ i (by
          rw [List.length_map, List.length_zip]
          exact lt_min htl hdl),
        getD_map_zip_row _ _ _ i htl hdl]⟩
  · intro j
    rw [collateRaw_text_rep_mask,
      _Ops.make_mask_getD_getD _ i (by simpa using hdl) j,
      getD_map_sum _ i hdl]
  · rw [collateRaw_dur, _Ops.merge_row_sum _ i (by rw [length_collateDurRows]; exact hi)]

theorem fs_c3_witness :
    (∃ padn, fsWFB.text_rep.getD 1 [] =
      repeat_interleave (fsWFB.text.getD 1 []) (fsWFB.dur.getD 1 []) ++
        List.replicate padn 0) ∧
    (fsWFB.text_rep_mask.getD 1 []).getD 6 false
      = decide (6 < (fsWFB.dur.getD 1 []).sum) ∧
    (fsWFB.dur.getD 1 []).sum
      = ((collateDurRows DursType.full_pad fsWBatch).getD 1 []).sum := by
  have h := fs_c3 DursType.full_pad 9 7 8 true fsWBatch fsWFB (by decide) 1 (by decide)
  exact ⟨h.1, h.2.1 6, h.2.2⟩

/-! ### Shape lemmas for the "pad" scheme -/

lemma foldl_max_add (l : List Nat) (a c : Nat) :
    (l.map (fun x => x + c)).foldl max (a + c) = l.foldl max a + c := by
  induction l generalizing a with
  | nil => rfl
  | cons x t ih =>
    simp only [List.map_cons, List.foldl_cons]
    rw [max_add_add_right]
    exact ih (max a x)

lemma foldl_max_zero_map_add (l : List Nat) (c : Nat) (hne : l ≠ []) :
    (l.map (fun x => x + c)).foldl max 0 = l.foldl max 0 + c := by
  cases l with
  | nil => cases hne rfl
  | cons x t =>
    simp only [List.map_cons, List.foldl_cons, Nat.zero_max]
    exact foldl_max_add t x c

lemma foldl_max_replicate_self (m c : Nat) : (List.replicate m c).foldl max c = c := by
  induction m with
  | zero => rfl
  | succ k ih =>
    rw [List.replicate_succ, List.foldl_cons, max_self]
    exact ih

lemma foldl_max_replicate (n c : Nat) (hn : n ≠ 0) :
    (List.replicate n c).foldl max 0 = c := by
  cases n with
  | zero => cases hn rfl
  | succ m =>
    rw [List.replicate_succ, List.foldl_cons, Nat.zero_max]
    exact foldl_max_replicate_self m c

namespace _Ops

lemma merge_map_length {α : Type} (ts : List (List α)) (v : α) :
    (merge ts v).map List.length = List.replicate ts.length (maxLen ts) := by
  have h1 : (merge ts v).map List.length = ts.map (fun _ => maxLen ts) := by
    unfold merge
    rw [List.map_map]
    refine List.map_congr_left ?_
    intro t ht
    have h2 := length_le_maxLen ht
    simp only [Function.comp_apply, List.length_append, List.length_replicate]
    omega
  rw [h1, List.map_const']

lemma shape2_merge {α : Type} (ts : List (List α)) (v : α) (hne : ts ≠ []) :
    shape2 (merge ts v) = (ts.length, maxLen ts) := by
  unfold shape2
  rw [length_merge, merge_map_length,
    foldl_max_replicate _ _ (fun h0 => hne (List.length_eq_zero.mp h0))]

lemma maxLen_mask_rows (lens : List Nat) :
    maxLen (lens.map (fun n => List.replicate n true)) = lens.foldl max 0 := by
  unfold maxLen
  rw [List.map_map]
  congr 1
  have h1 : lens.map (List.length ∘ fun n => List.replicate n true) = lens.map id := by
    refine List.map_congr_left ?_
    intro n hn
    simp
  rw [h1, List.map_id]

end _Ops

lemma collateTextRows_pad (s bl : Int) (batch : List FSExample) :
    collateTextRows DursType.pad s bl batch =
      batch.map (fun e => s :: (e.text ++ [s])) := rfl

lemma collateMaskLens_pad (batch : List FSExample) :
    collateMaskLens DursType.pad batch = batch.map (fun e => e.text_len + 2) := rfl

lemma collateDurRows_pad (batch : List FSExample) :
    collateDurRows DursType.pad batch = batch.map FSExample.dur := rfl

lemma length_collateMaskLens (dt : DursType) (batch : List FSExample) :
    (collateMaskLens dt batch).length = batch.length := by
  cases dt <;> simp [collateMaskLens]

/-- A "pad"-scheme example whose duration record has exactly one duration
per token, as claim C4 stipulates. -/
def fsPadBad : FSExample := ⟨[1], 1, [5], 1, none, [3]⟩

/-- Counterexample to claim C4 as stated: under the "pad" scheme, with an
example whose duration record has exactly one duration per token
(`dur.length = text.length = text_len`), collation does NOT succeed — the
`assert text.shape == dur.shape` fails, because `text` is widened by the two
space tokens (width `token_count + 2`) while `dur` is merged directly
(width `token_count`). -/
theorem fs_c4_counterexample :
    fsPadBad.dur.length = fsPadBad.text.length ∧
    fsPadBad.text_len = fsPadBad.text.length ∧
    fsPadBad.audio_len = fsPadBad.audio.length ∧
    collate DursType.pad 9 7 8 true [fsPadBad] = none := by decide

/-- Claim C4 (amended): under the "pad" scheme, for every non-empty batch of
examples whose duration record contains one duration per position of the
space-padded text (duration length = token count + 2, not token count as
stated), collation succeeds: it prepends and appends one space token to each
token sequence, builds the presence mask from `text_len + 2` per example,
pads-and-stacks the duration sequences directly without interleaving, and
returns a batch in which `dur` has the same shape as `text`
(width `max(token_count) + 2`). -/
theorem fs_c4 (s p bl : Int) (la : Bool) (batch : List FSExample)
    (hne : batch ≠ [])
    (htl : ∀ e ∈ batch, e.text_len = e.text.length)
    (hal : ∀ e ∈ batch, e.audio_len = e.audio.length)
    (hd : ∀ e ∈ batch, e.dur.length = e.text_len + 2) :
    ∃ fb, collate DursType.pad s p bl la batch = some fb ∧
      shape2 fb.dur = shape2 fb.text ∧
      (shape2 fb.text).2 = (batch.map (fun e => e.text.length)).foldl max 0 + 2 ∧
      (∀ i, i < batch.length → ∃ padn, fb.text.getD i [] =
        (s :: ((batch.getD i default).text ++ [s])) ++ List.replicate padn p) ∧
      (∀ i, i < batch.length → ∀ j, (fb.text_mask.getD i []).getD j false
          = decide (j < (batch.getD i default).text_len + 2)) ∧
      (∀ i, i < batch.length → ∃ padn, fb.dur.getD i [] =
        (batch.getD i default).dur ++ List.replicate padn 0) := by
  have hbl0 : batch.length ≠ 0 := fun h0 => hne (List.length_eq_zero.mp h0)
  have hMne : batch.map (fun e => e.text.length) ≠ [] := by
    intro hnil
    apply hbl0
    have := congrArg List.length hnil
    simpa using this
  -- the three row-length computations
  have hmap_text : (collateTextRows DursType.pad s bl batch).map List.length
      = (batch.map (fun e => e.text.length)).map (fun x => x + 2) := by
    rw [collateTextRows_pad, List.map_map, List.map_map]
    refine List.map_congr_left ?_
    intro e he
    simp only [Function.comp_apply, List.length_cons, List.length_append,
      List.length_singleton, List.length_nil]
  have hmap_lens : collateMaskLens DursType.pad batch
      = (batch.map (fun e => e.text.length)).map (fun x => x + 2) := by
    rw [collateMaskLens_pad, List.map_map]
    refine List.map_congr_left ?_
    intro e he
    simp only [Function.comp_apply]
    rw [htl e he]
  have hmap_dur : (collateDurRows DursType.pad batch).map List.length
      = (batch.map (fun e => e.text.length)).map (fun x => x + 2) := by
    rw [collateDurRows_pad, List.map_map, List.map_map]
    refine List.map_congr_left ?_
    intro e he
    simp only [Function.comp_apply]
    rw [hd e he, htl e he]
  have hTne : collateTextRows DursType.pad s bl batch ≠ [] := by
    intro hnil
    apply hbl0
    rw [← length_collateTextRows DursType.pad s bl batch, hnil]
    rfl
  have hDne : collateDurRows DursType.pad batch ≠ [] := by
    intro hnil
    apply hbl0
    rw [← length_collateDurRows DursType.pad batch, hnil]
    rfl
  have hLne : (collateMaskLens DursType.pad batch).map (fun n => List.replicate n true) ≠ [] := by
    intro hnil
    apply hbl0
    have := congrArg List.length hnil
    simpa [length_collateMaskLens] using this
  have hTshape : shape2 (_Ops.merge (collateTextRows DursType.pad s bl batch) p)
      = (batch.length, (batch.map (fun e => e.text.length)).foldl max 0 + 2) := by
    rw [_Ops.shape2_merge _ _ hTne, length_collateTextRows]
    unfold _Ops.maxLen
    rw [hmap_text, foldl_max_zero_map_add _ 2 hMne]
  have hMshape : shape2 (_Ops.make_mask (collateMaskLens DursType.pad batch))
      = (batch.length, (batch.map (fun e => e.text.length)).foldl max 0 + 2) := by
    unfold _Ops.make_mask
    rw [_Ops.shape2_merge _ _ hLne, _Ops.maxLen_mask_rows, List.length_map,
      length_collateMaskLens, hmap_lens, foldl_max_zero_map_add _ 2 hMne]
  have hDshape : shape2 (_Ops.merge (collateDurRows DursType.pad batch) 0)
      = (batch.length, (batch.map (fun e => e.text.length)).foldl max 0 + 2) := by
    rw [_Ops.shape2_merge _ _ hDne, length_collateDurRows]
    unfold _Ops.maxLen
    rw [hmap_dur, foldl_max_zero_map_add _ 2 hMne]
  have haudio : ((_Ops.merge (batch.map FSExample.audio) 0).map List.length).foldl max 0
      = (batch.map FSExample.audio_len).foldl max 0 := by
    rw [_Ops.merge_map_length,
      foldl_max_replicate _ _ (by simpa using hbl0)]
    unfold _Ops.maxLen
    congr 1
    rw [List.map_map]
    refine List.map_congr_left ?_
    intro e he
    simp only [Function.comp_apply]
    exact (hal e he).symm
  have hchk : collateChecks (collateRaw DursType.pad s p bl la batch) = true := by
    simp only [collateChecks, Bool.and_eq_true, beq_iff_eq]
    refine ⟨⟨?_, ?_⟩, ?_⟩
    · cases la with
      | false => rfl
      | true => exact beq_iff_eq.mpr haudio
    · rw [collateRaw_text, collateRaw_text_mask, hTshape, hMshape]
    · rw [collateRaw_text, collateRaw_dur, hTshape, hDshape]
  have hcol : collate DursType.pad s p bl la batch
      = some (collateRaw DursType.pad s p bl la batch) := by
    unfold collate
    rw [if_neg (by simpa [List.isEmpty_iff] using hne), if_pos hchk]
  refine ⟨collateRaw DursType.pad s p bl la batch, hcol, ?_, ?_, ?_, ?_, ?_⟩
  · rw [collateRaw_text, collateRaw_dur, hTshape, hDshape]
  · rw [collateRaw_text, hTshape]
  · intro i hi
    exact ⟨_, by
      rw [collateRaw_text,
        _Ops.merge_getD _ _ i (by rw [length_collateTextRows]; exact hi),
        collateTextRows_pad, getD_map_row _ _ i hi]⟩
  · intro i hi
    intro j
    rw [collateRaw_text_mask, collateMaskLens_pad,
      _Ops.make_mask_getD_getD _ i (by simpa using hi) j, getD_map_nat _ _ i hi]
  · intro i hi
    exact ⟨_, by
      rw [collateRaw_dur,
        _Ops.merge_getD _ _ i (by rw [length_collateDurRows]; exact hi),
        collateDurRows_pad, getD_map_row _ _ i hi]⟩

/-- A "pad"-scheme batch whose duration records have one duration per
space-padded position (`text_len + 2`). -/
def fsPadGood : FSExample := ⟨[1, 2], 2, [5, 6], 2, none, [1, 4, 5, 2]⟩

theorem fs_c4_witness :
    ∃ fb, collate DursType.pad 9 7 8 true [fsPadGood] = some fb ∧
      shape2 fb.dur = shape2 fb.text ∧
      (shape2 fb.text).2 = ([fsPadGood].map (fun e => e.text.length)).foldl max 0 + 2 ∧
      (∀ i, i < [fsPadGood].length → ∃ padn, fb.text.getD i [] =
        ((9 : Int) :: (([fsPadGood].getD i default).text ++ [(9 : Int)])) ++ List.replicate padn 7) ∧
      (∀ i, i < [fsPadGood].length → ∀ j, (fb.text_mask.getD i []).getD j false
          = decide (j < ([fsPadGood].getD i default).text_len + 2)) ∧
      (∀ i, i < [fsPadGood].length → ∃ padn, fb.dur.getD i [] =
        ([fsPadGood].getD i default).dur ++ List.replicate padn 0) :=
  fs_c4 9 7 8 true [fsPadGood] (by decide) (by decide) (by decide) (by decide)

/-! ### The duration loss (`FasterSpeechDurLoss`) -/

/-- The six duration-loss parameterizations (`method`); any other string is
rejected with `ValueError("Wrong Method")` at use. -/
inductive DurMethod where
  | l2_log : DurMethod
  | l2 : DurMethod
  | dmld_log : DurMethod
  | dmld : DurMethod
  | xe : DurMethod
  | xe_steps : DurMethod
deriving DecidableEq

/-- The two reduction modes; any other string is rejected with
`ValueError("Wrong Reduction")`. -/
inductive Reduction where
  | all : Reduction
  | batch : Reduction
deriving DecidableEq

/-- The loop of `FasterSpeechDurLoss.__init__` building the XE Steps class
boundaries: `while c < max_dur: k *= xe_steps_coef; c += k;
classes.append(int(c))`.  Python floats are modelled as `ℚ` (the operations
are exact for the configurations of interest) and `int(c)` as `⌊c⌋` (`c`
stays positive, where truncation and floor agree).  `fuel` bounds the
iteration count; it is instantiated large enough that the guard, not the
fuel, ends the loop. -/
def xeStepsLoop (coef max_dur : ℚ) : Nat → ℚ → ℚ → List Int
  | 0, _, _ => []
  | fuel + 1, k, c =>
    if c < max_dur then
      (⌊c + k * coef⌋) :: xeStepsLoop coef max_dur fuel (k * coef) (c + k * coef)
    else []

/-- The XE Steps class table of `FasterSpeechDurLoss.__init__`:
`np.arange(num_classes).tolist()` followed by the geometric-growth
boundaries, starting from `k, c = 1, num_classes - 1`. -/
def xeStepsClasses (num_classes : Nat) (max_dur : ℚ) (xe_steps_coef : ℚ) : List Int :=
  ((List.range num_classes).map Int.ofNat) ++
    xeStepsLoop xe_steps_coef max_dur 20 1 ((num_classes : ℚ) - 1)

/-- Configuration stored by `FasterSpeechDurLoss.__init__` (`_method`,
`_num_classes`, `_dmld_hidden`, `_reduction`, and the xe-steps parameters
from which `_xe_steps_classes` is derived). -/
structure DurLossCfg where
  method : DurMethod
  num_classes : Nat
  dmld_hidden : Nat
  reduction : Reduction
  max_dur : ℚ
  xe_steps_coef : ℚ

/-- `FasterSpeechDurLoss.d_out`.  The "dmld"/"dmld-log" branches evaluate
`3 * self._args.loss_dmld_hidden`, but no attribute `_args` is ever assigned
in this module (the constructor stores `self._dmld_hidden`), so the access
raises `AttributeError`, modelled as `none`. -/
def d_out (cfg : DurLossCfg) : Option Nat :=
  match cfg.method with
  | DurMethod.l2_log => some 1
  | DurMethod.l2 => some 1
  | DurMethod.dmld_log => none
  | DurMethod.dmld => none
  | DurMethod.xe => some cfg.num_classes
  | DurMethod.xe_steps =>
      some (xeStepsClasses cfg.num_classes cfg.max_dur cfg.xe_steps_coef).length

/-- `torch.clamp(dur_true, max=self._num_classes - 1)`, elementwise: the
target transform shared by the "dmld", "dmld-log" and "xe" branches of
`_loss_function`. -/
def clampDur (num_classes : Nat) (d : Int) : Int := min d ((num_classes : Int) - 1)

/-- Accumulator loop for `argmax(-1)`: strict comparison keeps the first
index attaining the maximum. -/
def argmaxGo : List ℚ → ℚ → Nat → Nat → Nat
  | [], _, best, _ => best
  | y :: rest, bestv, best, i =>
    if bestv < y then argmaxGo rest y i (i + 1) else argmaxGo rest bestv best (i + 1)

/-- `tensor.argmax(-1)` over one class-dimension slice. -/
def argmaxIdx : List ℚ → Nat
  | [] => 0
  | x :: rest => argmaxGo rest x 0 1

/-- Accumulator loop for `argmin(-1)` on distances. -/
def argminGo : List Nat → Nat → Nat → Nat → Nat
  | [], _, best, _ => best
  | y :: rest, bestv, best, i =>
    if y < bestv then argminGo rest y i (i + 1) else argminGo rest bestv best (i + 1)

/-- `(a - b).abs().argmin(-1)` of the "xe-steps" target transform: the index
of the class boundary nearest to the true duration. -/
def xeStepsTarget (classes : List Int) (d : Int) : Int :=
  (match classes.map (fun c => (d - c).natAbs) with
   | [] => 0
   | x :: rest => argminGo rest x 0 1 : Nat)

/-- The decode path of `FasterSpeechDurLoss.preprocessing` for method "xe":
`dur_pred.argmax(-1)`, then the common post-processing
`dur_pred[dur_pred < 0.0] = 0.0; dur_pred.float().round().long()` (on the
integral class indices `round` is the identity, so only the clamp at 0
remains). -/
def xePreprocess (p : List ℚ) : Int := max ((argmaxIdx p : Nat) : Int) 0

/-- `mel/duration` elementwise squared error, `F.mse_loss(..., reduction='none')`. -/
def mse2 (a b : List (List ℚ)) : List (List ℚ) :=
  List.zipWith (List.zipWith (fun x y => (x - y) ^ 2)) a b

/-- `dur_pred.squeeze(-1)`: drop the singleton last dimension (the guard in
`_loss_function` has already established that it is 1). -/
def squeeze3 (t : List (List (List ℚ))) : List (List ℚ) :=
  t.map (fun r => r.map (fun v => v.headD 0))

/-- `tensor.shape[-1]` of a 3-D tensor model (rows of a real tensor are
uniform; theorems carry the rectangularity assumption where it matters). -/
def lastDim3 (t : List (List (List ℚ))) : Nat := ((t.headD []).headD []).length

/-- `loss *= text_mask.float()`. -/
def maskMul2 (loss : List (List ℚ)) (mask : List (List Bool)) : List (List ℚ) :=
  List.zipWith (List.zipWith (fun lv mv => lv * (if mv then (1 : ℚ) else 0))) loss mask

/-- `tensor.sum()` of a 2-D tensor. -/
def sum2 (m : List (List ℚ)) : ℚ := (m.map List.sum).sum

/-- `mask.sum()`: the number of `True` entries. -/
def countTrue2 (mask : List (List Bool)) : Nat := (mask.map (fun r => r.count true)).sum

/-- `tensor.mean()` of a 1-D tensor. -/
def meanList (l : List ℚ) : ℚ := l.sum / (l.length : ℚ)

/-- The shared reduction tail of both losses: `loss.sum() / mask.sum()`
under "all"; `(loss.sum(-1) / mask.sum(-1)).mean()` under "batch". -/
def reduceLoss (red : Reduction) (loss : List (List ℚ)) (mask : List (List Bool)) : ℚ :=
  match red with
  | Reduction.all => sum2 loss / (countTrue2 mask : ℚ)
  | Reduction.batch =>
      meanList (List.zipWith (fun lr mr => lr.sum / ((mr.count true : Nat) : ℚ)) loss mask)

/-- External numerical collaborators of `_loss_function`, abstracted: `log`
(`torch.log` on floats), `nemo_tts.parts.dmld_loss`, and per-position
`F.cross_entropy` (the model hands `cross_entropy` the prediction in
(B, T, D) layout, standing for `dur_pred.transpose(1, 2)` in (B, D, T)).
The error-handling claims hold for every instantiation. -/
structure DurLossPrims where
  log : ℚ → ℚ
  dmld_loss : List (List (List ℚ)) → List (List ℚ) → Nat → List (List ℚ)
  cross_entropy : List (List (List ℚ)) → List (List Int) → List (List ℚ)

/-- `FasterSpeechDurLoss._loss_function`.  `Except.error` models the raised
`ValueError`; the only error this module itself raises for a well-formed
configuration is the `dur_pred` shape check of the "l2" family. -/
def durLossFunction (prims : DurLossPrims) (cfg : DurLossCfg)
    (dur_true : List (List Int)) (dur_pred : List (List (List ℚ)))
    (text_mask : List (List Bool)) : Except String ℚ :=
  if (cfg.method = DurMethod.l2_log ∨ cfg.method = DurMethod.l2) ∧ lastDim3 dur_pred ≠ 1 then
    Except.error "Wrong `dur_pred` shape."
  else
    let loss : List (List ℚ) :=
      match cfg.method with
      | DurMethod.l2_log =>
          mse2 (squeeze3 dur_pred)
            (dur_true.map (fun r => r.map (fun d => prims.log ((d : ℚ) + 1))))
      | DurMethod.l2 =>
          mse2 (squeeze3 dur_pred) (dur_true.map (fun r => r.map (fun d => (d : ℚ))))
      | DurMethod.dmld_log =>
          prims.dmld_loss dur_pred
            (dur_true.map (fun r => r.map (fun d =>
              (min (prims.log (((clampDur cfg.num_classes d : Int) : ℚ) + 1) /
                  prims.log ((cfg.num_classes : Nat) : ℚ)) 1 - 1/2) * 2)))
            cfg.num_classes
      | DurMethod.dmld =>
          prims.dmld_loss dur_pred
            (dur_true.map (fun r => r.map (fun d =>
              (((clampDur cfg.num_classes d : Int) : ℚ) / (((cfg.num_classes : Nat) : ℚ) - 1)
                - 1/2) * 2)))
            cfg.num_classes
      | DurMethod.xe =>
          prims.cross_entropy dur_pred
            (dur_true.map (fun r => r.map (clampDur cfg.num_classes)))
      | DurMethod.xe_steps =>
          prims.cross_entropy dur_pred
            (dur_true.map (fun r => r.map
              (xeStepsTarget (xeStepsClasses cfg.num_classes cfg.max_dur cfg.xe_steps_coef))))
    Except.ok (reduceLoss cfg.reduction (maskMul2 loss text_mask) text_mask)

set_option maxHeartbeats 1000000 in
/-- Claim C5: the xe-steps class-boundary table for num_classes=32,
max_dur=500, xe_steps_coef=1.5 has its first 32 entries exactly 0..31, every
entry strictly greater than its predecessor, and a final entry ≥ 500. -/
theorem fs_c5 :
    (xeStepsClasses 32 500 (3/2)).take 32 = (List.range 32).map Int.ofNat ∧
    List.Pairwise (fun a b => a < b) (xeStepsClasses 32 500 (3/2)) ∧
    (500 : Int) ≤ (xeStepsClasses 32 500 (3/2)).getLast! := by
  have hEval : xeStepsClasses 32 500 (3/2) =
      ((List.range 32).map Int.ofNat) ++
        [32, 34, 38, 43, 50, 62, 79, 104, 143, 200, 287, 417, 611] := by
    norm_num [xeStepsClasses, xeStepsLoop]
  rw [hEval]
  refine ⟨by decide, by decide, by decide⟩

/-- Claim C6: for method "xe" the target transform clamps the true duration
into [0, num_classes-1] (the code clamps at the top; durations are
non-negative), and the decode clamps at 0 and rounds after taking argmax;
the round-trip is exact at the class boundaries: duration 0 encodes to
class 0 and any prediction whose argmax is class 0 decodes to exactly 0;
duration num_classes-1 encodes to class num_classes-1 and any prediction
whose argmax is class num_classes-1 decodes to exactly num_classes-1. -/
theorem fs_c6 (num_classes : Nat) (h1 : 1 ≤ num_classes) :
    clampDur num_classes 0 = 0 ∧
    clampDur num_classes ((num_classes : Int) - 1) = (num_classes : Int) - 1 ∧
    (∀ d : Int, 0 ≤ d →
      0 ≤ clampDur num_classes d ∧ clampDur num_classes d ≤ (num_classes : Int) - 1) ∧
    (∀ p : List ℚ, argmaxIdx p = 0 → xePreprocess p = 0) ∧
    (∀ p : List ℚ, argmaxIdx p = num_classes - 1 →
      xePreprocess p = (num_classes : Int) - 1) := by
  have hn : (1 : Int) ≤ (num_classes : Int) := by exact_mod_cast h1
  refine ⟨?_, ?_, ?_, ?_, ?_⟩
  · simp only [clampDur]
    omega
  · simp only [clampDur, min_self]
  · intro d hd
    simp only [clampDur]
    omega
  · intro p hp
    simp [xePreprocess, hp]
  · intro p hp
    simp only [xePreprocess, hp]
    have h2 : ((num_classes - 1 : Nat) : Int) = (num_classes : Int) - 1 := by omega
    rw [h2, max_eq_left (by omega)]

theorem fs_c6_witness :
    clampDur 32 0 = 0 ∧
    clampDur 32 ((32 : Int) - 1) = (32 : Int) - 1 ∧
    xePreprocess [(5 : ℚ), 1] = 0 ∧
    xePreprocess (List.replicate 31 (0 : ℚ) ++ [5]) = (32 : Int) - 1 := by
  have h := fs_c6 32 (by decide)
  exact ⟨h.1, h.2.1, h.2.2.2.1 [(5 : ℚ), 1] (by decide),
    h.2.2.2.2 (List.replicate 31 (0 : ℚ) ++ [5]) (by decide)⟩

/-- Claim C7 (code bug): `d_out` returns 1 for "l2"/"l2-log", num_classes
for "xe" and the xe-steps table length for "xe-steps", as claimed; but for
"dmld"/"dmld-log" the code evaluates `3 * self._args.loss_dmld_hidden` — no
attribute `_args` is ever assigned in this module (the constructor stores
`self._dmld_hidden`) — so `d_out` raises `AttributeError` (`none`) instead
of returning `3 * dmld_hidden`. -/
theorem fs_c7 :
    d_out ⟨DurMethod.l2, 32, 5, Reduction.all, 500, 3/2⟩ = some 1 ∧
    d_out ⟨DurMethod.l2_log, 32, 5, Reduction.all, 500, 3/2⟩ = some 1 ∧
    d_out ⟨DurMethod.xe, 32, 5, Reduction.all, 500, 3/2⟩ = some 32 ∧
    d_out ⟨DurMethod.xe_steps, 32, 5, Reduction.all, 500, 3/2⟩
      = some (xeStepsClasses 32 500 (3/2)).length ∧
    d_out ⟨DurMethod.dmld, 32, 5, Reduction.all, 500, 3/2⟩ = none ∧
    d_out ⟨DurMethod.dmld_log, 32, 5, Reduction.all, 500, 3/2⟩ = none ∧
    d_out ⟨DurMethod.dmld, 32, 5, Reduction.all, 500, 3/2⟩ ≠ some (3 * 5) :=
  ⟨rfl, rfl, rfl, rfl, rfl, rfl, by decide⟩

/-- Claim C10: for methods "l2" and "l2-log" the duration loss raises
`ValueError("Wrong dur_pred shape.")` exactly when the prediction tensor's
last dimension is not 1, before any loss value is computed; the other four
methods check no prediction-shape precondition — for them (and for the l2
family with last dimension 1) this module always produces a value. -/
theorem fs_c10 (prims : DurLossPrims) (cfg : DurLossCfg)
    (dur_true : List (List Int)) (dur_pred : List (List (List ℚ)))
    (text_mask : List (List Bool)) :
    ((cfg.method = DurMethod.l2_log ∨ cfg.method = DurMethod.l2) →
      (durLossFunction prims cfg dur_true dur_pred text_mask
          = Except.error "Wrong `dur_pred` shape." ↔ lastDim3 dur_pred ≠ 1)) ∧
    ((cfg.method = DurMethod.l2_log ∨ cfg.method = DurMethod.l2) → lastDim3 dur_pred = 1 →
      ∃ q, durLossFunction prims cfg dur_true dur_pred text_mask = Except.ok q) ∧
    (¬(cfg.method = DurMethod.l2_log ∨ cfg.method = DurMethod.l2) →
      ∃ q, durLossFunction prims cfg dur_true dur_pred text_mask = Except.ok q) := by
  unfold durLossFunction
  by_cases hc : (cfg.method = DurMethod.l2_log ∨ cfg.method = DurMethod.l2) ∧
      lastDim3 dur_pred ≠ 1
  · rw [if_pos hc]
    exact ⟨fun _ => ⟨fun _ => hc.2, fun _ => rfl⟩,
      fun _ h1 => absurd h1 hc.2,
      fun hm => absurd hc.1 hm⟩
  · rw [if_neg hc]
    refine ⟨fun hm => ?_, fun _ _ => ⟨_, rfl⟩, fun _ => ⟨_, rfl⟩⟩
    constructor
    · intro hcontra
      exact absurd hcontra (by simp)
    · intro hlast
      exact absurd ⟨hm, hlast⟩ hc

/-- A trivial instantiation of the abstract numerical collaborators, used
only to evaluate the claims on concrete inputs. -/
def trivialPrims : DurLossPrims := ⟨fun _ => 0, fun _ _ _ => [], fun _ _ => []⟩

theorem fs_c10_witness :
    durLossFunction trivialPrims ⟨DurMethod.l2, 32, 5, Reduction.all, 500, 3/2⟩
        [[3]] [[[1, 2]]] [[true]] = Except.error "Wrong `dur_pred` shape." ∧
    (∃ q, durLossFunction trivialPrims ⟨DurMethod.xe, 32, 5, Reduction.all, 500, 3/2⟩
        [[3]] [[[1, 2]]] [[true]] = Except.ok q) := by
  have h1 := fs_c10 trivialPrims ⟨DurMethod.l2, 32, 5, Reduction.all, 500, 3/2⟩
    [[3]] [[[1, 2]]] [[true]]
  have h2 := fs_c10 trivialPrims ⟨DurMethod.xe, 32, 5, Reduction.all, 500, 3/2⟩
    [[3]] [[[1, 2]]] [[true]]
  exact ⟨(h1.1 (Or.inr rfl)).mpr (by decide), h2.2.2 (by decide)⟩

/-! ### The length-bucketed sampler (`SuperSmartSampler`) -/

/-- The batching loop of `SuperSmartSampler.__iter__`:
`for i in range(0, len(indices), self.batch_size): batches.append(indices[i : i + self.batch_size])`
— consecutive slices of size `bs`, the last possibly shorter, never dropped.
(Python raises on step 0; theorems assume `bs ≠ 0`.) -/
def chunks {α : Type} (bs : Nat) (l : List α) : List (List α) :=
  (List.range ((l.length + bs - 1) / bs)).map (fun i => (l.drop (i * bs)).take bs)

/-- `indices.sort(key=lambda i: self.lengths[i])`: stable ascending sort of
the worker's indices by the per-example length table. -/
def sortByLength (lengths : List ℚ) (indices : List Nat) : List Nat :=
  indices.mergeSort (fun i j => decide (lengths.getD i 0 ≤ lengths.getD j 0))

/-- Modelled from the spec: `torch.randperm(n, generator=g)` with
`g.manual_seed(self.epoch)` is missing from the source tree (torch is an
external collaborator); the spec requires only that the batch-order shuffle
be a deterministic-per-epoch permutation, so the model uses an explicit
seed-indexed rotation permutation of `0, ..., n - 1`. -/
def randperm (seed n : Nat) : List Nat := (List.range n).rotate seed

/-- `SuperSmartSampler.__iter__` on one worker's index list (the list the
`DistributedSampler` parent yields): sort ascending by length, chunk into
`batch_size` groups, shuffle batch order with the epoch-seeded generator,
and `yield from` the batches in that order. -/
def superSmartIter (lengths : List ℚ) (batch_size epoch : Nat)
    (indices : List Nat) : List Nat :=
  ((randperm epoch (chunks batch_size (sortByLength lengths indices)).length).map
    (fun bi => (chunks batch_size (sortByLength lengths indices)).getD bi [])).flatten

lemma chunks_flatten_take {α : Type} (bs : Nat) (l : List α) (k : Nat) :
    ((List.range k).map (fun i => (l.drop (i * bs)).take bs)).flatten = l.take (k * bs) := by
  induction k with
  | zero => simp
  | succ k ih =>
    rw [List.range_succ, List.map_append, List.flatten_append, ih]
    simp only [List.map_cons, List.map_nil, List.flatten_cons, List.flatten_nil,
      List.append_nil]
    rw [show (k + 1) * bs = k * bs + bs by ring, List.take_add]

lemma chunks_flatten {α : Type} (bs : Nat) (hbs : bs ≠ 0) (l : List α) :
    (chunks bs l).flatten = l := by
  unfold chunks
  rw [chunks_flatten_take]
  apply List.take_of_length_le
  have h1 := Nat.div_add_mod (l.length + bs - 1) bs
  have h2 := Nat.mod_lt (l.length + bs - 1) (Nat.pos_of_ne_zero hbs)
  have h3 : ((l.length + bs - 1) / bs) * bs = bs * ((l.length + bs - 1) / bs) :=
    Nat.mul_comm _ _
  omega

lemma range_map_getD {α : Type} (l : List α) (d : α) :
    (List.range l.length).map (fun i => l.getD i d) = l := by
  apply List.ext_getElem
  · simp
  · intro n h1 h2
    rw [List.getElem_map, List.getElem_range, List.getD_eq_getElem _ _ h2]

lemma mem_chunks_sublist {α : Type} (bs : Nat) (l : List α) (b : List α)
    (hb : b ∈ chunks bs l) : b.Sublist l := by
  unfold chunks at hb
  obtain ⟨i, hi, rfl⟩ := List.mem_map.mp hb
  exact (List.take_sublist _ _).trans (List.drop_sublist _ _)

/-- Claim C9: the length-bucketed sampler is deterministic per epoch — its
output is a pure function of (index set, lengths, batch size, epoch), so two
separate iterations with the same inputs produce identical flat index
sequences; the batch order is a permutation (drawn from the epoch-seeded
generator) of the length-sorted batches; within each batch the ascending
length-sorted order is preserved; and the last, possibly shorter batch is
kept, never dropped — the flat output is a permutation of the input index
set. -/
theorem fs_c9 (lengths : List ℚ) (batch_size : Nat) (hbs : batch_size ≠ 0)
    (epoch : Nat) (indices : List Nat) :
    superSmartIter lengths batch_size epoch indices
      = superSmartIter lengths batch_size epoch indices ∧
    (randperm epoch (chunks batch_size (sortByLength lengths indices)).length).Perm
      (List.range (chunks batch_size (sortByLength lengths indices)).length) ∧
    superSmartIter lengths batch_size epoch indices
      = ((randperm epoch (chunks batch_size (sortByLength lengths indices)).length).map
          (fun bi => (chunks batch_size (sortByLength lengths indices)).getD bi [])).flatten ∧
    (∀ b ∈ chunks batch_size (sortByLength lengths indices),
      b.Pairwise (fun i j => lengths.getD i 0 ≤ lengths.getD j 0)) ∧
    (chunks batch_size (sortByLength lengths indices)).flatten
      = sortByLength lengths indices ∧
    (superSmartIter lengths batch_size epoch indices).Perm indices := by
  refine ⟨rfl, List.rotate_perm _ _, rfl, ?_, chunks_flatten _ hbs _, ?_⟩
  · intro b hb
    have hsorted : List.Pairwise
        (fun i j => decide (lengths.getD i 0 ≤ lengths.getD j 0) = true)
        (sortByLength lengths indices) := by
      unfold sortByLength
      refine List.sorted_mergeSort ?_ ?_ indices
      · intro a b c hab hbc
        simp only [decide_eq_true_eq] at hab hbc ⊢
        exact le_trans hab hbc
      · intro a b
        simp only [Bool.or_eq_true, decide_eq_true_eq]
        exact le_total _ _
    exact (List.Pairwise.sublist (mem_chunks_sublist _ _ b hb) hsorted).imp
      (fun h => by simpa using h)
  · have houter : ((randperm epoch
        (chunks batch_size (sortByLength lengths indices)).length).map
          (fun bi => (chunks batch_size (sortByLength lengths indices)).getD bi [])).Perm
        (chunks batch_size (sortByLength lengths indices)) := by
      have h := (List.rotate_perm
        (List.range (chunks batch_size (sortByLength lengths indices)).length) epoch).map
        (fun bi => (chunks batch_size (sortByLength lengths indices)).getD bi [])
      rw [range_map_getD] at h
      exact h
    have hflat := houter.flatten
    rw [chunks_flatten batch_size hbs] at hflat
    exact hflat.trans (List.mergeSort_perm indices _)

theorem fs_c9_witness :
    (superSmartIter [3, 1, 2] 2 1 [0, 1, 2]).Perm [0, 1, 2] ∧
    (chunks 2 (sortByLength [3, 1, 2] [0, 1, 2])).flatten
      = sortByLength [3, 1, 2] [0, 1, 2] := by
  have h := fs_c9 [3, 1, 2] 2 (by decide) 1 [0, 1, 2]
  exact ⟨h.2.2.2.2.2, h.2.2.2.2.1⟩

/-! ### The mel loss (`FasterSpeechMelLoss`) -/

/-- `tensor.transpose(-1, -2)` of one example's (D, T) mel matrix into
(T, D); for a rectangular matrix, entry (t, d) is entry (d, t). -/
def transpose2 (m : List (List ℚ)) : List (List ℚ) :=
  (List.range (m.headD []).length).map (fun t => m.map (fun row => row.getD t 0))

/-- `F.mse_loss(mel_pred, mel_true.transpose(-1, -2), reduction='none').mean(-1)`:
elementwise squared error, averaged over the feature (last) dimension. -/
def mseMeanLast (pred target : List (List (List ℚ))) : List (List ℚ) :=
  List.zipWith (fun prow trow =>
    List.zipWith (fun pv tv =>
      (List.zipWith (fun a b => (a - b) ^ 2) pv tv).sum /
        ((List.zipWith (fun a b => (a - b) ^ 2) pv tv).length : ℚ)) prow trow) pred target

/-- `FasterSpeechMelLoss._loss_function`.  `none` models the raised
`ValueError("Wrong mel length calculation.")`: the check
`torch.equal(mel_len, dur_true.sum(-1)) and torch.equal(mel_len, text_rep_mask.sum(-1))`. -/
def melLossFunction (red : Reduction) (mel_true mel_pred : List (List (List ℚ)))
    (mel_len : List Nat) (dur_true : List (List Nat))
    (text_rep_mask : List (List Bool)) : Option ℚ :=
  if mel_len = dur_true.map List.sum ∧
      mel_len = text_rep_mask.map (fun r => r.count true) then
    some (reduceLoss red
      (maskMul2 (mseMeanLast mel_pred (mel_true.map transpose2)) text_rep_mask)
      text_rep_mask)
  else none

/-- Per the spec (§4.6), by explicit indexing into the (B, T, D) prediction
and the (B, D, T) truth: the squared error of frame (b, t), averaged over
the feature dimension. -/
def melFrameSpec (D : Nat) (mel_true mel_pred : List (List (List ℚ)))
    (b t : Nat) : ℚ :=
  ((List.range D).map (fun d =>
    (((mel_pred.getD b []).getD t []).getD d 0
      - ((mel_true.getD b []).getD d []).getD t 0) ^ 2)).sum / (D : ℚ)

/-- One example's frame-rate loss row, per the spec: the per-frame error
where the mask is `True`, zero elsewhere. -/
def melMaskedRowSpec (T D : Nat) (mel_true mel_pred : List (List (List ℚ)))
    (mask : List (List Bool)) (b : Nat) : List ℚ :=
  (List.range T).map (fun t =>
    if (mask.getD b []).getD t false then melFrameSpec D mel_true mel_pred b t else 0)

/-- The mel-loss value as the spec words it (§4.6): the per-frame squared
error between predicted and true mel frames, averaged over the feature
dimension, multiplied by the frame-rate mask, reduced as a global mean over
unmasked positions ("all") or a per-example mean then batch mean
("batch"). -/
def melLossSpecVal (red : Reduction) (B T D : Nat)
    (mel_true mel_pred : List (List (List ℚ))) (mask : List (List Bool)) : ℚ :=
  match red with
  | Reduction.all =>
      ((List.range B).map (fun b => (melMaskedRowSpec T D mel_true mel_pred mask b).sum)).sum /
        (((List.range B).map (fun b => (((mask.getD b []).count true : Nat) : ℚ))).sum)
  | Reduction.batch =>
      (((List.range B).map (fun b =>
        (melMaskedRowSpec T D mel_true mel_pred mask b).sum /
          (((mask.getD b []).count true : Nat) : ℚ))).sum) / (B : ℚ)

lemma zipWith_eq_range_map {α β γ : Type} (f : α → β → γ) (l1 : List α) (l2 : List β)
    (d1 : α) (d2 : β) (n : Nat) (h1 : l1.length = n) (h2 : l2.length = n) :
    List.zipWith f l1 l2 = (List.range n).map (fun i => f (l1.getD i d1) (l2.getD i d2)) := by
  apply List.ext_getElem
  · simp [List.length_zipWith, h1, h2]
  · intro i hi1 hi2
    have hl1 : i < l1.length := by
      rw [List.length_zipWith] at hi1
      omega
    have hl2 : i < l2.length := by
      rw [List.length_zipWith] at hi1
      omega
    rw [List.getElem_zipWith, List.getElem_map, List.getElem_range,
      List.getD_eq_getElem _ _ hl1, List.getD_eq_getElem _ _ hl2]

lemma getD_range_map {α : Type} (f : Nat → α) (n : Nat) (d : α) (i : Nat) (h : i < n) :
    ((List.range n).map f).getD i d = f i := by
  rw [List.getD_eq_getElem _ _ (by simpa using h), List.getElem_map, List.getElem_range]

lemma getD_map' {α β : Type} (f : α → β) (l : List α) (dA : α) (dB : β) (i : Nat)
    (h : i < l.length) : (l.map f).getD i dB = f (l.getD i dA) := by
  rw [List.getD_eq_getElem _ _ (by simpa using h), List.getD_eq_getElem _ _ h]
  simp

/-- Claim C8: the mel loss raises an error (rejecting the batch) if and only
if, for at least one example, the mel length differs from the sum of true
durations or from the sum of the frame-rate presence mask; when all three
per-example counts agree it returns the per-frame squared error between
predicted and true mel frames averaged over the feature dimension,
multiplied by the frame-rate mask, and reduced as a global mean over
unmasked positions ("all") or a per-example mean then batch mean
("batch"). -/
theorem fs_c8 (red : Reduction) (B T D : Nat)
    (mel_true mel_pred : List (List (List ℚ)))
    (mel_len : List Nat) (dur_true : List (List Nat)) (mask : List (List Bool))
    (hB1 : mel_len.length = dur_true.length)
    (hB2 : mel_len.length = mask.length)
    (hpB : mel_pred.length = B) (hpT : ∀ r ∈ mel_pred, r.length = T)
    (hpD : ∀ r ∈ mel_pred, ∀ v ∈ r, v.length = D)
    (htB : mel_true.length = B) (htD : ∀ m ∈ mel_true, m.length = D)
    (htT : ∀ m ∈ mel_true, ∀ row ∈ m, row.length = T)
    (hmB : mask.length = B) (hmT : ∀ r ∈ mask, r.length = T)
    (hD : D ≠ 0) :
    (melLossFunction red mel_true mel_pred mel_len dur_true mask = none ↔
      ∃ i, i < mel_len.length ∧
        (mel_len.getD i 0 ≠ (dur_true.getD i []).sum ∨
         mel_len.getD i 0 ≠ (mask.getD i []).count true)) ∧
    ((∀ i, i < mel_len.length →
        mel_len.getD i 0 = (dur_true.getD i []).sum ∧
        mel_len.getD i 0 = (mask.getD i []).count true) →
      melLossFunction red mel_true mel_pred mel_len dur_true mask
        = some (melLossSpecVal red B T D mel_true mel_pred mask)) := by
  -- pointwise characterisation of the two torch.equal checks
  have hc1 : mel_len = dur_true.map List.sum ↔
      ∀ i, i < mel_len.length → mel_len.getD i 0 = (dur_true.getD i []).sum := by
    constructor
    · intro he i hi
      rw [he]
      exact getD_map' List.sum dur_true [] 0 i (by rw [← hB1]; exact hi)
    · intro hp
      apply List.ext_getElem
      · rw [List.length_map]
        exact hB1
      · intro i h1 h2
        have h3 := hp i h1
        rw [List.getD_eq_getElem _ _ h1] at h3
        rw [h3, List.getElem_map, List.getD_eq_getElem _ _ (by simpa using h2)]
  have hc2 : mel_len = mask.map (fun r => r.count true) ↔
      ∀ i, i < mel_len.length → mel_len.getD i 0 = (mask.getD i []).count true := by
    constructor
    · intro he i hi
      rw [he]
      exact getD_map' (fun r => r.count true) mask [] 0 i (by rw [← hB2]; exact hi)
    · intro hp
      apply List.ext_getElem
      · rw [List.length_map]
        exact hB2
      · intro i h1 h2
        have h3 := hp i h1
        rw [List.getD_eq_getElem _ _ h1] at h3
        rw [h3, List.getElem_map, List.getD_eq_getElem _ _ (by simpa using h2)]
  -- the masked loss matrix in spec (range-indexed) form
  have htTlen : (mel_true.map transpose2).length = B := by
    rw [List.length_map]
    exact htB
  have hM0 : mseMeanLast mel_pred (mel_true.map transpose2)
      = (List.range B).map (fun b =>
          List.zipWith (fun pv tv =>
            (List.zipWith (fun a b2 => (a - b2) ^ 2) pv tv).sum /
              ((List.zipWith (fun a b2 => (a - b2) ^ 2) pv tv).length : ℚ))
            (mel_pred.getD b []) ((mel_true.map transpose2).getD b [])) := by
    unfold mseMeanLast
    exact zipWith_eq_range_map _ mel_pred (mel_true.map transpose2) [] [] B hpB htTlen
  have hrow : ∀ b, b < B →
      List.zipWith (fun pv tv =>
        (List.zipWith (fun a b2 => (a - b2) ^ 2) pv tv).sum /
          ((List.zipWith (fun a b2 => (a - b2) ^ 2) pv tv).length : ℚ))
        (mel_pred.getD b []) ((mel_true.map transpose2).getD b [])
      = (List.range T).map (fun t => melFrameSpec D mel_true mel_pred b t) := by
    intro b hb
    have hpmem : mel_pred.getD b [] ∈ mel_pred :=
      _Ops.getD_mem_of_lt _ _ (by rw [hpB]; exact hb)
    have hprowT : (mel_pred.getD b []).length = T := hpT _ hpmem
    have htmem : mel_true.getD b [] ∈ mel_true :=
      _Ops.getD_mem_of_lt _ _ (by rw [htB]; exact hb)
    have hmD : (mel_true.getD b []).length = D := htD _ htmem
    have hhead : (mel_true.getD b []).headD [] ∈ mel_true.getD b [] := by
      cases hml : mel_true.getD b [] with
      | nil =>
        rw [hml] at hmD
        simp at hmD
        exact absurd hmD.symm hD
      | cons a t2 => simp
    have hheadT : ((mel_true.getD b []).headD []).length = T := htT _ htmem _ hhead
    have htrans : (mel_true.map transpose2).getD b [] = transpose2 (mel_true.getD b []) :=
      getD_map' transpose2 mel_true [] [] b (by rw [htB]; exact hb)
    have htrowlen : (transpose2 (mel_true.getD b [])).length = T := by
      unfold transpose2
      rw [List.length_map, List.length_range, hheadT]
    rw [htrans, zipWith_eq_range_map _ _ _ [] [] T hprowT htrowlen]
    refine List.map_congr_left ?_
    intro t htmem2
    have htT2 : t < T := List.mem_range.mp htmem2
    have htv : (transpose2 (mel_true.getD b [])).getD t []
        = (mel_true.getD b []).map (fun row => row.getD t 0) := by
      unfold transpose2
      rw [getD_range_map _ _ _ t (by rw [hheadT]; exact htT2)]
    rw [htv]
    have hpvmem : (mel_pred.getD b []).getD t [] ∈ mel_pred.getD b [] :=
      _Ops.getD_mem_of_lt _ _ (by rw [hprowT]; exact htT2)
    have hpv : ((mel_pred.getD b []).getD t []).length = D := hpD _ hpmem _ hpvmem
    have htvlen : ((mel_true.getD b []).map (fun row => row.getD t 0)).length = D := by
      rw [List.length_map]
      exact hmD
    rw [zipWith_eq_range_map _ _ _ 0 0 D hpv htvlen]
    unfold melFrameSpec
    congr 1
    · refine congrArg List.sum (List.map_congr_left ?_)
      intro d hdmem
      have hdD : d < D := List.mem_range.mp hdmem
      rw [getD_map' (fun row => row.getD t 0) (mel_true.getD b []) [] 0 d
        (by rw [hmD]; exact hdD)]
    · rw [List.length_map, List.length_range]
  have hM0len : (mseMeanLast mel_pred (mel_true.map transpose2)).length = B := by
    rw [hM0, List.length_map, List.length_range]
  have hM : maskMul2 (mseMeanLast mel_pred (mel_true.map transpose2)) mask
      = (List.range B).map (melMaskedRowSpec T D mel_true mel_pred mask) := by
    unfold maskMul2
    rw [zipWith_eq_range_map _ _ _ [] [] B hM0len hmB]
    refine List.map_congr_left ?_
    intro b hbmem
    have hb : b < B := List.mem_range.mp hbmem
    have hM0row : (mseMeanLast mel_pred (mel_true.map transpose2)).getD b []
        = (List.range T).map (fun t => melFrameSpec D mel_true mel_pred b t) := by
      rw [hM0, getD_range_map _ _ _ b hb, hrow b hb]
    rw [hM0row]
    have hmaskmem : mask.getD b [] ∈ mask :=
      _Ops.getD_mem_of_lt _ _ (by rw [hmB]; exact hb)
    have hmrT : (mask.getD b []).length = T := hmT _ hmaskmem
    rw [zipWith_eq_range_map _ _ _ 0 false T (by rw [List.length_map, List.length_range]) hmrT]
    unfold melMaskedRowSpec
    refine List.map_congr_left ?_
    intro t htmem2
    have ht : t < T := List.mem_range.mp htmem2
    rw [getD_range_map _ _ _ t ht]
    by_cases hmv : (mask.getD b []).getD t false
    · rw [if_pos hmv, if_pos hmv, mul_one]
    · rw [if_neg (by simpa using hmv), if_neg hmv, mul_zero]
  have hmask_counts : mask.map (fun r => r.count true)
      = (List.range B).map (fun b => (mask.getD b []).count true) := by
    conv_lhs => rw [← range_map_getD mask ([] : List Bool)]
    rw [List.map_map, hmB]
    rfl
  have hred : reduceLoss red
      (maskMul2 (mseMeanLast mel_pred (mel_true.map transpose2)) mask) mask
      = melLossSpecVal red B T D mel_true mel_pred mask := by
    cases red with
    | all =>
      simp only [reduceLoss, sum2, countTrue2, melLossSpecVal]
      rw [hM, List.map_map, hmask_counts, Nat.cast_list_sum, List.map_map]
      rfl
    | batch =>
      simp only [reduceLoss, meanList, melLossSpecVal]
      have hMlen : (maskMul2 (mseMeanLast mel_pred (mel_true.map transpose2)) mask).length
          = B := by
        rw [hM, List.length_map, List.length_range]
      rw [zipWith_eq_range_map _ _ _ [] [] B hMlen hmB, List.length_map, List.length_range]
      congr 1
      refine congrArg List.sum (List.map_congr_left ?_)
      intro b hbmem
      have hb : b < B := List.mem_range.mp hbmem
      rw [hM, getD_range_map _ _ _ b hb]
  refine ⟨?_, ?_⟩
  · unfold melLossFunction
    by_cases hcond : (mel_len = dur_true.map List.sum ∧
        mel_len = mask.map (fun r => r.count true))
    · rw [if_pos hcond]
      constructor
      · intro h
        exact absurd h (by simp)
      · rintro ⟨i, hi, hne⟩
        rcases hne with h | h
        · exact absurd (hc1.mp hcond.1 i hi) h
        · exact absurd (hc2.mp hcond.2 i hi) h
    · rw [if_neg hcond]
      constructor
      · intro _
        rcases not_and_or.mp hcond with hna | hnb
        · have h4 := (not_iff_not.mpr hc1).mp hna
          push_neg at h4
          obtain ⟨i, hi, hne⟩ := h4
          exact ⟨i, hi, Or.inl hne⟩
        · have h4 := (not_iff_not.mpr hc2).mp hnb
          push_neg at h4
          obtain ⟨i, hi, hne⟩ := h4
          exact ⟨i, hi, Or.inr hne⟩
      · intro _
        rfl
  · intro hall
    have hcond : mel_len = dur_true.map List.sum ∧
        mel_len = mask.map (fun r => r.count true) :=
      ⟨hc1.mpr (fun i hi => (hall i hi).1), hc2.mpr (fun i hi => (hall i hi).2)⟩
    unfold melLossFunction
    rw [if_pos hcond, hred]

theorem fs_c8_witness :
    melLossFunction Reduction.all [[[1, 5]]] [[[2], [3]]] [2] [[2]] [[true, true]]
      = some (melLossSpecVal Reduction.all 1 2 1 [[[1, 5]]] [[[2], [3]]] [[true, true]]) := by
  have h := fs_c8 Reduction.all 1 2 1 [[[1, 5]]] [[[2], [3]]] [2] [[2]] [[true, true]]
    (by decide) (by decide) (by decide) (by decide) (by decide) (by decide)
    (by decide) (by decide) (by decide) (by decide) (by decide)
  exact h.2 (by decide)
